import Mathlib

/-!
Verification of the DataLab kernel workspace layer.

This file embeds the workspace module of the DataLab kernel
(`datalab_kernel/workspace.py`) as Lean definitions and proves the
behavioural claims about it.  The store backends are modelled as pure
functions over explicit state; Python exceptions become an explicit
error type; numeric payload arrays are modelled as integer lists (the
persistence codec copies them verbatim, so the element type is
irrelevant to every property proved here).
-/

set_option maxHeartbeats 1000000

/-- Python exception kinds raised by the workspace layer. -/
inductive PyError : Type where
  | keyError (msg : String)
  | valueError (msg : String)
  | runtimeError (msg : String)
  | connectionError (msg : String)
  | fileNotFoundError (msg : String)
  | notImplementedError (msg : String)
deriving DecidableEq, Repr

/-- Modelled from the spec: the external signal object value (spec section 3).
A signal carries ordered numeric sample axes x and y, optional per-sample
uncertainties dx and dy, and display metadata (axis labels, units).  The
object model itself lives in the external sigima package, outside this
repository, so it is taken from the spec attribute contract together with
the attribute accesses performed by the workspace source. -/
structure SignalObj : Type where
  title : String
  x : List Int
  y : List Int
  dx : Option (List Int)
  dy : Option (List Int)
  xlabel : Option String
  ylabel : Option String
  xunit : Option String
  yunit : Option String
deriving DecidableEq, Repr

/-- Modelled from the spec: the external image object value (spec section 3).
An image carries a 2-D numeric array, an optional boolean mask array,
optional geometric origin and spacing, and display metadata (axis and
intensity labels, units). -/
structure ImageObj : Type where
  title : String
  data : List (List Int)
  mask : Option (List (List Bool))
  x0 : Option Int
  y0 : Option Int
  dx : Option Int
  dy : Option Int
  xlabel : Option String
  ylabel : Option String
  zlabel : Option String
  xunit : Option String
  yunit : Option String
  zunit : Option String
deriving DecidableEq, Repr

/-- A workspace data object is either a signal or an image. -/
inductive DataObject : Type where
  | signal (s : SignalObj)
  | image (i : ImageObj)
deriving DecidableEq, Repr

namespace DataObject

/-- The title attribute of a data object. -/
def title : DataObject → String
  | .signal s => s.title
  | .image i => i.title

/-- Assigning the title attribute of a data object. -/
def setTitle : DataObject → String → DataObject
  | .signal s, t => .signal { s with title := t }
  | .image i, t => .image { i with title := t }

end DataObject

instance : Inhabited DataObject :=
  ⟨.signal ⟨"", [], [], none, none, none, none, none, none⟩⟩

/-! ### Association lists: the model of Python insertion-ordered dicts -/

/-- Lookup in an association list keyed by strings (Python `d[k]` read,
first matching key wins; keys are unique in an actual dict). -/
def lookupStr {α : Type} : List (String × α) → String → Option α
  | [], _ => none
  | (k, v) :: t, key => if k = key then some v else lookupStr t key

/-- Python `d[k] = v`: replace the value in place if the key is present,
append a new binding otherwise (insertion order preserved). -/
def insertOrReplace {α : Type} : List (String × α) → String → α → List (String × α)
  | [], key, v => [(key, v)]
  | (k, w) :: t, key, v =>
      if k = key then (key, v) :: t else (k, w) :: insertOrReplace t key v

/-- Python `del d[k]` / `d.pop(k)`: remove the first binding of the key. -/
def removeKey {α : Type} : List (String × α) → String → List (String × α)
  | [], _ => []
  | (k, w) :: t, key => if k = key then t else (k, w) :: removeKey t key

/-- The keys of an association list, in order. -/
def keysOf {α : Type} (l : List (String × α)) : List String :=
  l.map Prod.fst

/-! ### Standalone backend (local store)

The standalone backend holds a dict mapping names to objects.  Methods
that may mutate state are embedded as functions returning the new state
together with an optional raised exception; a raised exception leaves the
state component at whatever the method had produced when it raised. -/

/-- The internal object dict of a StandaloneBackend. -/
abbrev Store : Type := List (String × DataObject)

namespace StandaloneBackend

/-- StandaloneBackend.list: all object names. -/
def list (s : Store) : List String :=
  keysOf s

/-- StandaloneBackend.get: retrieve an object by name; KeyError when the
name is absent. -/
def get (s : Store) (name : String) : Except PyError DataObject :=
  match lookupStr s name with
  | none => .error (.keyError "object not found")
  | some o => .ok o

/-- StandaloneBackend.add: insert an object under a name.  ValueError when
the name is already bound and overwrite is false; otherwise the stored
value is a copy of the argument. -/
def add (s : Store) (name : String) (obj : DataObject) (overwrite : Bool) :
    Store × Option PyError :=
  if (lookupStr s name).isSome && !overwrite then
    (s, some (.valueError "object already exists"))
  else
    (insertOrReplace s name obj, none)

/-- StandaloneBackend.remove: delete a binding; KeyError when absent. -/
def remove (s : Store) (name : String) : Store × Option PyError :=
  match lookupStr s name with
  | none => (s, some (.keyError "object not found"))
  | some _ => (removeKey s name, none)

/-- StandaloneBackend.rename: check the old name, check the new name, then
pop the old binding, bind the object under the new name and update its
title attribute. -/
def rename (s : Store) (oldName newName : String) : Store × Option PyError :=
  match lookupStr s oldName with
  | none => (s, some (.keyError "object not found"))
  | some o =>
      if (lookupStr s newName).isSome then
        (s, some (.valueError "object already exists"))
      else
        (insertOrReplace (removeKey s oldName) newName (o.setTitle newName), none)

/-- StandaloneBackend.exists: membership test on the dict. -/
def existsName (s : Store) (name : String) : Bool :=
  (lookupStr s name).isSome

/-- StandaloneBackend.clear: drop every binding. -/
def clear (_ : Store) : Store :=
  []

end StandaloneBackend

/-! ### Persistence codec (HDF5 container model)

An HDF5 group as used by the codec: one optional type tag attribute, the
fixed set of dataset slots the codec writes and reads (x, y, dx, dy for
signals; data for images), and the fixed set of scalar attribute slots
(title, geometric origin and spacing, labels, units).  A slot holding
none models the absence of that dataset or attribute in the group. -/
structure H5Group : Type where
  typeTag : Option String
  dsX : Option (List Int)
  dsY : Option (List Int)
  dsDx : Option (List Int)
  dsDy : Option (List Int)
  dsData : Option (List (List Int))
  aTitle : Option String
  aX0 : Option Int
  aY0 : Option Int
  aDx : Option Int
  aDy : Option Int
  aXlabel : Option String
  aYlabel : Option String
  aZlabel : Option String
  aXunit : Option String
  aYunit : Option String
  aZunit : Option String
deriving DecidableEq, Repr

/-- An HDF5 file: the two file-level attributes written by save, and the
named groups, one per entry. -/
structure H5File : Type where
  kernelVersion : String
  formatVersion : String
  groups : List (String × H5Group)
deriving DecidableEq, Repr

/-- The file system seen by save and load: a map from paths to files. -/
abbrev FileSys : Type := List (String × H5File)

/-- Python str.endswith, defined on the character lists so that it
evaluates by reduction. -/
def strEndsWith (s pat : String) : Bool :=
  pat.data.isSuffixOf s.data

/-- Attribute written only when the string is truthy (Python `if obj.title:`
on a string attribute). -/
def attrIfNonempty (s : String) : Option String :=
  if s = "" then none else some s

/-- Attribute written only when the optional string attribute is set and
truthy (Python `if hasattr(obj, k) and getattr(obj, k):`). -/
def attrIfTruthy : Option String → Option String
  | none => none
  | some s => if s = "" then none else some s

namespace StandaloneBackend

/-- The group with every slot empty. -/
def emptyGroup : H5Group :=
  ⟨none, none, none, none, none, none, none, none, none, none, none,
   none, none, none, none, none, none⟩

/-- StandaloneBackend.saveObjectToGroup: write one object into a fresh
group, tagging it with the object type name, creating the datasets for
the payload arrays (optional ones only when set) and the metadata
attributes (only when truthy, or for the geometric image attributes,
only when set). -/
def saveObjectToGroup : DataObject → H5Group
  | .signal o =>
      { emptyGroup with
        typeTag := some "SignalObj"
        dsX := some o.x
        dsY := some o.y
        dsDx := o.dx
        dsDy := o.dy
        aTitle := attrIfNonempty o.title
        aXlabel := attrIfTruthy o.xlabel
        aYlabel := attrIfTruthy o.ylabel
        aXunit := attrIfTruthy o.xunit
        aYunit := attrIfTruthy o.yunit }
  | .image o =>
      { emptyGroup with
        typeTag := some "ImageObj"
        dsData := some o.data
        aX0 := o.x0
        aY0 := o.y0
        aDx := o.dx
        aDy := o.dy
        aTitle := attrIfNonempty o.title
        aXlabel := attrIfTruthy o.xlabel
        aYlabel := attrIfTruthy o.ylabel
        aZlabel := attrIfTruthy o.zlabel
        aXunit := attrIfTruthy o.xunit
        aYunit := attrIfTruthy o.yunit
        aZunit := attrIfTruthy o.zunit }

/-- StandaloneBackend.loadSignal: rebuild a SignalObj from a group; the
x and y datasets are read unconditionally (KeyError when absent), the
optional datasets and attributes only when present, and the title
defaults to the group name. -/
def loadSignal (g : H5Group) (name : String) : Except PyError SignalObj :=
  match g.dsX, g.dsY with
  | some x, some y =>
      .ok { title := g.aTitle.getD name
            x := x
            y := y
            dx := g.dsDx
            dy := g.dsDy
            xlabel := g.aXlabel
            ylabel := g.aYlabel
            xunit := g.aXunit
            yunit := g.aYunit }
  | _, _ => .error (.keyError "dataset not found")

/-- StandaloneBackend.loadImage: rebuild an ImageObj from a group; the
data dataset is read unconditionally (KeyError when absent), attributes
only when present, the title defaults to the group name.  Nothing in the
loader assigns a mask, so a freshly loaded image carries none. -/
def loadImage (g : H5Group) (name : String) : Except PyError ImageObj :=
  match g.dsData with
  | some d =>
      .ok { title := g.aTitle.getD name
            data := d
            mask := none
            x0 := g.aX0
            y0 := g.aY0
            dx := g.aDx
            dy := g.aDy
            xlabel := g.aXlabel
            ylabel := g.aYlabel
            zlabel := g.aZlabel
            xunit := g.aXunit
            yunit := g.aYunit
            zunit := g.aZunit }
  | none => .error (.keyError "dataset not found")

/-- StandaloneBackend.loadObjectFromGroup: dispatch on the type tag
(defaulting to an unrecognized value when the attribute is missing); on
an unrecognized tag fall back to structural inference: an x and y pair
means a signal, a data dataset means an image, anything else is skipped
(returns none). -/
def loadObjectFromGroup (g : H5Group) (name : String) :
    Except PyError (Option DataObject) :=
  let t := g.typeTag.getD "unknown"
  if t = "SignalObj" then
    match loadSignal g name with
    | .ok o => .ok (some (.signal o))
    | .error e => .error e
  else if t = "ImageObj" then
    match loadImage g name with
    | .ok o => .ok (some (.image o))
    | .error e => .error e
  else if g.dsX.isSome && g.dsY.isSome then
    match loadSignal g name with
    | .ok o => .ok (some (.signal o))
    | .error e => .error e
  else if g.dsData.isSome then
    match loadImage g name with
    | .ok o => .ok (some (.image o))
    | .error e => .error e
  else
    .ok none

/-- The file that StandaloneBackend.save writes: version attributes plus
one group per entry, in store order. -/
def fileOfStore (s : Store) : H5File :=
  { kernelVersion := "0.1.0"
    formatVersion := "1.0"
    groups := s.map (fun e => (e.1, saveObjectToGroup e.2)) }

/-- StandaloneBackend.save: append the .h5 extension when missing, then
write the whole store as a file at the resulting path. -/
def save (s : Store) (fs : FileSys) (filepath : String) : FileSys :=
  let fp := if strEndsWith filepath ".h5" then filepath else filepath ++ ".h5"
  insertOrReplace fs fp (fileOfStore s)

/-- The group-merging loop of StandaloneBackend.load: each group that
decodes to an object is bound under its group name (replacing any
existing binding); a group that decodes to none is skipped; a decoding
error aborts the loop, leaving the bindings made so far. -/
def loadGroups (s : Store) : List (String × H5Group) → Store × Option PyError
  | [] => (s, none)
  | (name, g) :: rest =>
      match loadObjectFromGroup g name with
      | .error e => (s, some e)
      | .ok none => loadGroups s rest
      | .ok (some o) => loadGroups (insertOrReplace s name o) rest

/-- StandaloneBackend.load: FileNotFoundError when the path does not
exist; otherwise merge every group of the file into the current store. -/
def load (s : Store) (fs : FileSys) (filepath : String) :
    Store × Option PyError :=
  match lookupStr fs filepath with
  | none => (s, some (.fileNotFoundError "file not found"))
  | some f => loadGroups s f.groups

end StandaloneBackend

/-! ### Reference-level model of add and get

The standalone store holds references into the Python object heap, and
add stores a copy.  To state the defensive-copy property the heap is
made explicit: `heap` is the set of live object cells addressed by
index, and the backend dict maps names to cell indices.  Caller-side
mutation of an object is an update of its heap cell. -/

/-- The standalone backend together with the surrounding object heap. -/
structure HeapState : Type where
  heap : List DataObject
  objects : List (String × Nat)
deriving Repr

namespace HeapState

/-- StandaloneBackend.add at the reference level: validate the name,
then allocate a fresh cell holding a copy of the argument cell's value
(every object value here supports cloning) and bind the name to the
fresh cell. -/
def add (st : HeapState) (name : String) (r : Nat) (overwrite : Bool) :
    HeapState × Option PyError :=
  if (lookupStr st.objects name).isSome && !overwrite then
    (st, some (.valueError "object already exists"))
  else
    ({ heap := st.heap ++ [st.heap.getD r default]
       objects := insertOrReplace st.objects name st.heap.length }, none)

/-- StandaloneBackend.get at the reference level: the value of the cell
the name is bound to. -/
def get (st : HeapState) (name : String) : Except PyError DataObject :=
  match lookupStr st.objects name with
  | none => .error (.keyError "object not found")
  | some r => .ok (st.heap.getD r default)

/-- Caller-side mutation of the object behind reference r. -/
def mutate (st : HeapState) (r : Nat) (v : DataObject) : HeapState :=
  { st with heap := st.heap.set r v }

end HeapState

/-! ### Live backend (RPC proxy to the peer application)

The peer partitions objects into a signal panel and an image panel.  The
two probe flags model whether a title query on the respective panel
currently succeeds; a failing probe raises, which the backend catches. -/

/-- The observable state of the peer application behind the RPC proxy. -/
structure Peer : Type where
  signals : List SignalObj
  images : List ImageObj
  sigProbeOk : Bool
  imgProbeOk : Bool
deriving DecidableEq, Repr

/-- The two peer panels. -/
inductive Panel : Type where
  | signal
  | image
deriving DecidableEq, Repr

namespace LiveBackend

/-- proxy.get_object_titles: the titles of one panel, or a raised error
when that panel's probe fails. -/
def getObjectTitles (p : Peer) : Panel → Except PyError (List String)
  | .signal =>
      if p.sigProbeOk then .ok (p.signals.map (fun s => s.title))
      else .error (.connectionError "panel probe failed")
  | .image =>
      if p.imgProbeOk then .ok (p.images.map (fun i => i.title))
      else .error (.connectionError "panel probe failed")

/-- First signal of a panel with a given title. -/
def findSignalByTitle : List SignalObj → String → Option SignalObj
  | [], _ => none
  | s :: rest, t => if s.title = t then some s else findSignalByTitle rest t

/-- First image of a panel with a given title. -/
def findImageByTitle : List ImageObj → String → Option ImageObj
  | [], _ => none
  | i :: rest, t => if i.title = t then some i else findImageByTitle rest t

/-- proxy.get_object: the first object of the panel bearing the title. -/
def getObjectFromPanel (p : Peer) (name : String) : Panel → Option DataObject
  | .signal => (findSignalByTitle p.signals name).map DataObject.signal
  | .image => (findImageByTitle p.images name).map DataObject.image

/-- LiveBackend.list: concatenate the titles of both panels, each panel
probe independently caught and contributing nothing on failure. -/
def list (p : Peer) : List String :=
  (match getObjectTitles p .signal with
   | .ok ts => ts
   | .error _ => []) ++
  (match getObjectTitles p .image with
   | .ok ts => ts
   | .error _ => [])

/-- The image half of LiveBackend.get: probe the image panel, fetch on a
title hit, KeyError otherwise (also when the probe itself fails). -/
def getFromImages (p : Peer) (name : String) : Except PyError DataObject :=
  match getObjectTitles p .image with
  | .ok ts =>
      if name ∈ ts then
        match getObjectFromPanel p name .image with
        | some o => .ok o
        | none => .error (.keyError "object not found in DataLab workspace")
      else .error (.keyError "object not found in DataLab workspace")
  | .error _ => .error (.keyError "object not found in DataLab workspace")

/-- LiveBackend.get: try the signal panel first (failures caught), then
the image panel, then KeyError. -/
def get (p : Peer) (name : String) : Except PyError DataObject :=
  match getObjectTitles p .signal with
  | .ok ts =>
      if name ∈ ts then
        match getObjectFromPanel p name .signal with
        | some o => .ok o
        | none => getFromImages p name
      else getFromImages p name
  | .error _ => getFromImages p name

/-- LiveBackend.exists: membership in the merged title list. -/
def existsName (p : Peer) (name : String) : Bool :=
  (list p).contains name

/-- LiveBackend.add on the overwrite-false path taken by the migration:
ValueError when the title is already visible on the peer; otherwise set
the object title to the name and forward it, the peer classifying it
into the panel of its kind. -/
def add (p : Peer) (name : String) (obj : DataObject) :
    Peer × Option PyError :=
  if existsName p name then
    (p, some (.valueError "object already exists"))
  else
    match obj.setTitle name with
    | .signal s => ({ p with signals := p.signals ++ [s] }, none)
    | .image i => ({ p with images := p.images ++ [i] }, none)

end LiveBackend

/-! ### Workspace orchestrator -/

/-- Workspace execution mode. -/
inductive WorkspaceMode : Type where
  | standalone
  | live
deriving DecidableEq, Repr

/-- The state of the active backend held by a workspace.  The HTTP-blob
backend has no source in this repository and no claim below depends on
its internals, so it is not modelled as a backend state. -/
inductive BackendState : Type where
  | standalone (s : Store)
  | liveRpc (p : Peer)
deriving DecidableEq, Repr

/-- A workspace: its mode and its single active backend. -/
structure Workspace : Type where
  mode : WorkspaceMode
  backend : BackendState
deriving DecidableEq, Repr

namespace Workspace

/-- Dynamic dispatch of list over the active backend. -/
def backendList : BackendState → List String
  | .standalone s => StandaloneBackend.list s
  | .liveRpc p => LiveBackend.list p

/-- Dynamic dispatch of get over the active backend. -/
def backendGet : BackendState → String → Except PyError DataObject
  | .standalone s, n => StandaloneBackend.get s n
  | .liveRpc p, n => LiveBackend.get p n

/-- The migration loop of Workspace.resync: for each listed name, fetch
the object from the old backend and add it to the new live backend; the
first raised error aborts the loop and propagates. -/
def transferLoop (old : BackendState) : List String → Peer → Except PyError Peer
  | [], p => .ok p
  | n :: rest, p =>
      match backendGet old n with
      | .error e => .error e
      | .ok o =>
          match LiveBackend.add p n o with
          | (p2, none) => transferLoop old rest p2
          | (_, some e) => .error e

/-- Workspace.resync: false when already live; false when constructing
the live backend fails (connectOk models whether the connection probe
of the LiveBackend constructor succeeds, p0 what the peer then holds);
otherwise migrate every entry of the current backend into the new live
backend, switch to it and return true. -/
def resync (w : Workspace) (connectOk : Bool) (p0 : Peer) :
    Except PyError (Workspace × Bool) :=
  if w.mode = .live then .ok (w, false)
  else if !connectOk then .ok (w, false)
  else
    match transferLoop w.backend (backendList w.backend) p0 with
    | .error e => .error e
    | .ok p2 => .ok ({ mode := .live, backend := .liveRpc p2 }, true)

/-- Workspace.calc: RuntimeError unless in live mode; in live mode the
request is forwarded to the peer computation engine, which is external
to this repository, so its result is collapsed to a unit value.  The
workspace state is returned unchanged: the method never assigns it. -/
def calcOp (w : Workspace) (_fname : String) :
    Workspace × Except PyError Unit :=
  if w.mode ≠ .live then
    (w, .error (.runtimeError "calc is only available in live mode"))
  else
    (w, .ok ())

/-- The Workspace.proxy accessor: RuntimeError unless in live mode; in
live mode the raw channel of the live backend, and RuntimeError when the
active backend is not the RPC one.  The workspace state is returned
unchanged: the accessor never assigns it. -/
def proxyAccessor (w : Workspace) : Workspace × Except PyError Peer :=
  if w.mode ≠ .live then
    (w, .error (.runtimeError "proxy is only available in live mode"))
  else
    match w.backend with
    | .liveRpc p => (w, .ok p)
    | _ => (w, .error (.runtimeError "backend is not LiveBackend"))

end Workspace

/-! ### Statement-side predicates and proof helpers -/

/-- Labels and units carried by an object are either absent or nonempty
strings (an empty string is falsy in Python, so the codec treats it as
absent; sigima initialises these attributes to absent). -/
def WellFormedObject : DataObject → Prop
  | .signal o =>
      o.xlabel ≠ some "" ∧ o.ylabel ≠ some "" ∧
      o.xunit ≠ some "" ∧ o.yunit ≠ some ""
  | .image o =>
      o.xlabel ≠ some "" ∧ o.ylabel ≠ some "" ∧ o.zlabel ≠ some "" ∧
      o.xunit ≠ some "" ∧ o.yunit ≠ some "" ∧ o.zunit ≠ some ""

/-- What a save-then-load round trip actually preserves of one object:
both payload and every optional field of a signal; of an image the data
array, the geometric attributes and the labels, while the reloaded
image carries no mask. -/
def RoundTripRel : DataObject → DataObject → Prop
  | .signal a, .signal b =>
      b.x = a.x ∧ b.y = a.y ∧ b.dx = a.dx ∧ b.dy = a.dy ∧
      b.xlabel = a.xlabel ∧ b.ylabel = a.ylabel ∧
      b.xunit = a.xunit ∧ b.yunit = a.yunit
  | .image a, .image b =>
      b.data = a.data ∧ b.x0 = a.x0 ∧ b.y0 = a.y0 ∧
      b.dx = a.dx ∧ b.dy = a.dy ∧
      b.xlabel = a.xlabel ∧ b.ylabel = a.ylabel ∧ b.zlabel = a.zlabel ∧
      b.xunit = a.xunit ∧ b.yunit = a.yunit ∧ b.zunit = a.zunit ∧
      b.mask = none
  | _, _ => False

/-- The signal-panel objects that migrating a store adds to the peer:
every signal entry, retitled with its entry name, in store order. -/
def sigEntries (s : Store) : List SignalObj :=
  s.filterMap (fun e =>
    match e.2 with
    | .signal a => some { a with title := e.1 }
    | .image _ => none)

/-- The image-panel objects that migrating a store adds to the peer. -/
def imgEntries (s : Store) : List ImageObj :=
  s.filterMap (fun e =>
    match e.2 with
    | .signal _ => none
    | .image a => some { a with title := e.1 })

/-- One successful migration step: the peer after LiveBackend.add of one
entry that did not collide (the object retitled with its name, appended
to the panel of its kind). -/
def peerInsert (p : Peer) (n : String) (o : DataObject) : Peer :=
  match o.setTitle n with
  | .signal s => { p with signals := p.signals ++ [s] }
  | .image i => { p with images := p.images ++ [i] }

/-- The peer after migrating every entry of a store, in store order. -/
def peerInsertAll : List (String × DataObject) → Peer → Peer
  | [], p => p
  | (n, o) :: rest, p => peerInsertAll rest (peerInsert p n o)

/-! ### Concrete sample inputs for witnesses and counterexamples -/

/-- A sample signal with both uncertainty arrays present. -/
def exSig : SignalObj :=
  { title := "s1", x := [0, 1, 2], y := [0, 1, 0]
    dx := some [1, 1, 1], dy := some [2, 2, 2]
    xlabel := some "t", ylabel := none, xunit := some "s", yunit := none }

/-- A sample image carrying a mask. -/
def exImgMask : ImageObj :=
  { title := "i1", data := [[1, 2], [3, 4]]
    mask := some [[true, false], [false, true]]
    x0 := some 0, y0 := none, dx := some 1, dy := some 1
    xlabel := none, ylabel := none, zlabel := some "z"
    xunit := none, yunit := none, zunit := none }

/-- A second sample signal, used as a pre-existing entry that a load
must leave untouched. -/
def exSig2 : SignalObj :=
  { title := "keep", x := [5], y := [6]
    dx := none, dy := none
    xlabel := none, ylabel := none, xunit := none, yunit := none }

/-- A sample store holding the signal and the masked image. -/
def exStore : Store :=
  [("s1", .signal exSig), ("i1", .image exImgMask)]

/-- A signal already titled "s1", sitting on the peer before a resync. -/
def exPeerSig : SignalObj :=
  { exSig with title := "s1" }

/-- A peer whose signal panel already holds a signal titled "s1",
with both panel probes healthy. -/
def exPeerClash : Peer :=
  { signals := [exPeerSig], images := [], sigProbeOk := true, imgProbeOk := true }

/-- An empty, healthy peer. -/
def exPeerEmpty : Peer :=
  { signals := [], images := [], sigProbeOk := true, imgProbeOk := true }

/-- A group with no type tag but an x and y pair plus a data dataset. -/
def exGroupXY : H5Group :=
  { StandaloneBackend.emptyGroup with
    dsX := some [0, 1], dsY := some [2, 3], dsData := some [[7]] }

/-- A group with an unrecognized type tag and only a data dataset. -/
def exGroupData : H5Group :=
  { StandaloneBackend.emptyGroup with
    typeTag := some "Mystery", dsData := some [[5, 6]] }

/-! ### Backend discovery at construction -/

/-- The environment consulted by backend auto-detection: the two
configuration variables, and whether construction of each remote
backend (an external effect) would currently succeed. -/
structure DiscoveryEnv : Type where
  kernelMode : Option String
  workspaceUrl : Option String
  webApiOk : Bool
  rpcOk : Bool
deriving DecidableEq, Repr

/-- Which backend auto-detection selected. -/
inductive BackendKind : Type where
  | standaloneKind
  | webApiKind
  | liveRpcKind
deriving DecidableEq, Repr

/-- Lower-casing of an environment string (Python str.lower), defined
directly on the character list so that it evaluates by reduction. -/
def strLower (s : String) : String :=
  ⟨s.data.map Char.toLower⟩

/-- Python truthiness of an optional environment string: set and
nonempty. -/
def truthyEnv : Option String → Bool
  | none => false
  | some s => !(s = "")

namespace Workspace

/-- The XML-RPC leg of auto-detection: the live backend when its
construction succeeds, ConnectionError when the configuration demands
live mode, the standalone fallback otherwise. -/
def tryRpcThenFallback (e : DiscoveryEnv) (km : String) :
    Except PyError (BackendKind × WorkspaceMode) :=
  if e.rpcOk then .ok (.liveRpcKind, .live)
  else if km = "live" then
    .error (.connectionError "failed to connect to DataLab")
  else .ok (.standaloneKind, .standalone)

/-- Workspace.autoDetectBackend: forced standalone short-circuits
everything; otherwise a truthy workspace URL makes the HTTP backend the
first attempt, failing construction with ConnectionError only when live
mode is demanded and falling through to the RPC attempt otherwise; the
RPC attempt obeys the same rule, and the local store is the final
fallback. -/
def autoDetectBackend (e : DiscoveryEnv) :
    Except PyError (BackendKind × WorkspaceMode) :=
  let km := strLower (e.kernelMode.getD "auto")
  if km = "standalone" then .ok (.standaloneKind, .standalone)
  else if truthyEnv e.workspaceUrl then
    if e.webApiOk then .ok (.webApiKind, .live)
    else if km = "live" then
      .error (.connectionError "failed to connect to DataLab Web API")
    else tryRpcThenFallback e km
  else tryRpcThenFallback e km

end Workspace

/-! ### Association-list lemmas -/

theorem lookupStr_insertOrReplace_self {α : Type} (l : List (String × α))
    (k : String) (v : α) : lookupStr (insertOrReplace l k v) k = some v := by
  induction l with
  | nil => simp [insertOrReplace, lookupStr]
  | cons hd tl ih =>
      obtain ⟨a, w⟩ := hd
      by_cases ha : a = k
      · simp [insertOrReplace, ha, lookupStr]
      · simp [insertOrReplace, ha, lookupStr, ih]

theorem lookupStr_insertOrReplace_ne {α : Type} (l : List (String × α))
    (k k' : String) (v : α) (h : k' ≠ k) :
    lookupStr (insertOrReplace l k v) k' = lookupStr l k' := by
  have hk : ¬ k = k' := fun hh => h hh.symm
  induction l with
  | nil => simp [insertOrReplace, lookupStr, hk]
  | cons hd tl ih =>
      obtain ⟨a, w⟩ := hd
      by_cases ha : a = k
      · subst ha
        simp [insertOrReplace, lookupStr, hk]
      · by_cases ha' : a = k'
        · simp [insertOrReplace, ha, lookupStr, ha', hk, h]
        · simp [insertOrReplace, ha, lookupStr, ha', ih]

theorem lookupStr_removeKey_ne {α : Type} (l : List (String × α))
    (k k' : String) (h : k' ≠ k) :
    lookupStr (removeKey l k) k' = lookupStr l k' := by
  induction l with
  | nil => simp [removeKey]
  | cons hd tl ih =>
      obtain ⟨a, w⟩ := hd
      by_cases ha : a = k
      · subst ha
        have ha' : ¬ a = k' := fun hh => h hh.symm
        simp [removeKey, lookupStr, ha']
      · by_cases ha' : a = k'
        · simp [removeKey, ha, lookupStr, ha', h]
        · simp [removeKey, ha, lookupStr, ha', ih]

theorem lookupStr_eq_none_of_not_mem_keys {α : Type} (l : List (String × α))
    (k : String) (h : k ∉ keysOf l) : lookupStr l k = none := by
  induction l with
  | nil => rfl
  | cons hd tl ih =>
      obtain ⟨a, w⟩ := hd
      simp only [keysOf, List.map_cons, List.mem_cons, not_or] at h
      have ha : ¬ a = k := fun hh => h.1 hh.symm
      simp only [lookupStr, ha, if_false]
      exact ih h.2

theorem mem_keys_of_lookupStr_some {α : Type} (l : List (String × α))
    (k : String) (v : α) (h : lookupStr l k = some v) : k ∈ keysOf l := by
  induction l with
  | nil => simp [lookupStr] at h
  | cons hd tl ih =>
      obtain ⟨a, w⟩ := hd
      by_cases ha : a = k
      · simp [keysOf, ha]
      · simp only [lookupStr, ha, if_false] at h
        exact List.mem_cons_of_mem _ (ih h)

theorem lookupStr_removeKey_self {α : Type} (l : List (String × α))
    (k : String) (h : (keysOf l).Nodup) :
    lookupStr (removeKey l k) k = none := by
  induction l with
  | nil => rfl
  | cons hd tl ih =>
      obtain ⟨a, w⟩ := hd
      simp only [keysOf, List.map_cons, List.nodup_cons] at h
      by_cases ha : a = k
      · subst ha
        simp only [removeKey, if_pos rfl]
        exact lookupStr_eq_none_of_not_mem_keys tl a h.1
      · simp only [removeKey, ha, if_false, lookupStr]
        exact ih h.2

theorem mem_of_lookupStr_some {α : Type} (l : List (String × α))
    (k : String) (v : α) (h : lookupStr l k = some v) : (k, v) ∈ l := by
  induction l with
  | nil => simp [lookupStr] at h
  | cons hd tl ih =>
      obtain ⟨a, w⟩ := hd
      by_cases ha : a = k
      · subst ha
        have hw : w = v := by simpa [lookupStr] using h
        subst hw
        exact List.mem_cons_self _ _
      · simp only [lookupStr, ha, if_false] at h
        exact List.mem_cons_of_mem _ (ih h)

/-! ### Claim C6 -/

/-- Claim C6: on the RPC-proxy backend, list never propagates a panel probe
failure: for every combination of the two panel probes succeeding or
failing, each failing probe contributes no names, each succeeding probe
contributes exactly its panel titles, and list returns normally.  The
last two conjuncts pin down that a cleared probe flag really makes the
underlying title query raise, so the absorption is doing work. -/
theorem c6_live_list_absorbs_probe_failures (p : Peer) :
    LiveBackend.list p =
      (if p.sigProbeOk then p.signals.map (fun s => s.title) else []) ++
      (if p.imgProbeOk then p.images.map (fun i => i.title) else []) ∧
    LiveBackend.getObjectTitles p .signal =
      (if p.sigProbeOk then .ok (p.signals.map (fun s => s.title))
       else .error (.connectionError "panel probe failed")) ∧
    LiveBackend.getObjectTitles p .image =
      (if p.imgProbeOk then .ok (p.images.map (fun i => i.title))
       else .error (.connectionError "panel probe failed")) := by
  refine ⟨?_, rfl, rfl⟩
  cases hs : p.sigProbeOk <;> cases hi : p.imgProbeOk <;>
    simp [LiveBackend.list, LiveBackend.getObjectTitles, hs, hi]

/-! ### Claim C5 -/

/-- Claim C5: in standalone mode, calc and the proxy accessor both fail with
the live-mode-required RuntimeError, whatever the backend holds, and the
workspace state component is returned unchanged. -/
theorem c5_calc_proxy_require_live (w : Workspace) (fname : String)
    (h : w.mode = .standalone) :
    Workspace.calcOp w fname =
      (w, .error (.runtimeError "calc is only available in live mode")) ∧
    Workspace.proxyAccessor w =
      (w, .error (.runtimeError "proxy is only available in live mode")) := by
  constructor
  · simp [Workspace.calcOp, h]
  · simp [Workspace.proxyAccessor, h]

/-- Witness for C5 at a standalone workspace holding two entries. -/
theorem c5_calc_proxy_require_live_witness :
    Workspace.calcOp ⟨.standalone, .standalone exStore⟩ "fft" =
      (⟨.standalone, .standalone exStore⟩,
       .error (.runtimeError "calc is only available in live mode")) ∧
    Workspace.proxyAccessor ⟨.standalone, .standalone exStore⟩ =
      (⟨.standalone, .standalone exStore⟩,
       .error (.runtimeError "proxy is only available in live mode")) :=
  c5_calc_proxy_require_live ⟨.standalone, .standalone exStore⟩ "fft" rfl

/-! ### Claim C3 -/

/-- Claim C3: backend discovery priority at construction.  Forced standalone
wins unconditionally; else a truthy remote-HTTP URL makes the HTTP-blob
backend the first attempt, whose failure raises ConnectionError exactly
when live mode is demanded and otherwise falls through; else the
RPC-proxy backend is attempted under the same rule; else the local
store.  Each successful outcome fixes exactly one backend kind. -/
theorem c3_backend_discovery (e : DiscoveryEnv) :
    (strLower (e.kernelMode.getD "auto") = "standalone" →
      Workspace.autoDetectBackend e = .ok (.standaloneKind, .standalone)) ∧
    (strLower (e.kernelMode.getD "auto") ≠ "standalone" →
      truthyEnv e.workspaceUrl = true → e.webApiOk = true →
      Workspace.autoDetectBackend e = .ok (.webApiKind, .live)) ∧
    (strLower (e.kernelMode.getD "auto") = "live" →
      truthyEnv e.workspaceUrl = true → e.webApiOk = false →
      Workspace.autoDetectBackend e =
        .error (.connectionError "failed to connect to DataLab Web API")) ∧
    (strLower (e.kernelMode.getD "auto") ≠ "standalone" →
      (truthyEnv e.workspaceUrl = false ∨
        (e.webApiOk = false ∧ strLower (e.kernelMode.getD "auto") ≠ "live")) →
      e.rpcOk = true →
      Workspace.autoDetectBackend e = .ok (.liveRpcKind, .live)) ∧
    (strLower (e.kernelMode.getD "auto") = "live" →
      truthyEnv e.workspaceUrl = false → e.rpcOk = false →
      Workspace.autoDetectBackend e =
        .error (.connectionError "failed to connect to DataLab")) ∧
    (strLower (e.kernelMode.getD "auto") ≠ "standalone" →
      strLower (e.kernelMode.getD "auto") ≠ "live" →
      (truthyEnv e.workspaceUrl = false ∨ e.webApiOk = false) →
      e.rpcOk = false →
      Workspace.autoDetectBackend e = .ok (.standaloneKind, .standalone)) := by
  have hls : ("live" : String) ≠ "standalone" := by decide
  refine ⟨?_, ?_, ?_, ?_, ?_, ?_⟩
  · intro h1
    simp [Workspace.autoDetectBackend, h1]
  · intro h1 h2 h3
    simp [Workspace.autoDetectBackend, h1, h2, h3]
  · intro h1 h2 h3
    simp [Workspace.autoDetectBackend, h1, h2, h3, hls]
  · intro h1 h2 h3
    rcases h2 with h2 | ⟨h2a, h2b⟩
    · simp [Workspace.autoDetectBackend, Workspace.tryRpcThenFallback, h1, h2, h3]
    · simp [Workspace.autoDetectBackend, Workspace.tryRpcThenFallback,
        h1, h2a, h2b, h3]
  · intro h1 h2 h3
    simp [Workspace.autoDetectBackend, Workspace.tryRpcThenFallback,
      h1, h2, h3, hls]
  · intro h1 h2 h3 h4
    rcases h3 with h3 | h3
    · simp [Workspace.autoDetectBackend, Workspace.tryRpcThenFallback,
        h1, h2, h3, h4]
    · cases hurl : truthyEnv e.workspaceUrl
      · simp [Workspace.autoDetectBackend, Workspace.tryRpcThenFallback,
          h1, h2, hurl, h4]
      · simp [Workspace.autoDetectBackend, Workspace.tryRpcThenFallback,
          h1, h2, h3, hurl, h4]

/-- Witness for C3: one concrete environment per discovery outcome. -/
theorem c3_backend_discovery_witness :
    Workspace.autoDetectBackend ⟨some "standalone", some "u", true, true⟩ =
      .ok (.standaloneKind, .standalone) ∧
    Workspace.autoDetectBackend ⟨none, some "u", true, false⟩ =
      .ok (.webApiKind, .live) ∧
    Workspace.autoDetectBackend ⟨some "live", some "u", false, false⟩ =
      .error (.connectionError "failed to connect to DataLab Web API") ∧
    Workspace.autoDetectBackend ⟨none, none, false, true⟩ =
      .ok (.liveRpcKind, .live) ∧
    Workspace.autoDetectBackend ⟨some "live", none, false, false⟩ =
      .error (.connectionError "failed to connect to DataLab") ∧
    Workspace.autoDetectBackend ⟨none, none, false, false⟩ =
      .ok (.standaloneKind, .standalone) :=
  ⟨(c3_backend_discovery ⟨some "standalone", some "u", true, true⟩).1 (by decide),
   (c3_backend_discovery ⟨none, some "u", true, false⟩).2.1 (by decide) (by decide) rfl,
   (c3_backend_discovery ⟨some "live", some "u", false, false⟩).2.2.1
     (by decide) (by decide) rfl,
   (c3_backend_discovery ⟨none, none, false, true⟩).2.2.2.1 (by decide)
     (Or.inl (by decide)) rfl,
   (c3_backend_discovery ⟨some "live", none, false, false⟩).2.2.2.2.1
     (by decide) (by decide) rfl,
   (c3_backend_discovery ⟨none, none, false, false⟩).2.2.2.2.2 (by decide)
     (by decide) (Or.inl (by decide)) rfl⟩

/-! ### List cell lemmas for the heap model -/

theorem getD_append_length {α : Type} (l : List α) (v d : α) :
    (l ++ [v]).getD l.length d = v := by
  simp [List.getD_eq_getElem?_getD, List.getElem?_append_right]

theorem getD_set_ne {α : Type} (l : List α) (i j : Nat) (x d : α)
    (h : i ≠ j) : (l.set i x).getD j d = l.getD j d := by
  simp [List.getD_eq_getElem?_getD, List.getElem?_set_ne h]

/-- Setting the title really sets the title attribute. -/
theorem DataObject.title_setTitle (o : DataObject) (t : String) :
    (o.setTitle t).title = t := by
  cases o <;> rfl

/-! ### Claim C9 -/

/-- Claim C9: save silently appends the .h5 extension when the path lacks it,
writing the file at the extended path and nothing at the requested path,
so an immediate load of the same extensionless path fails with
FileNotFoundError even though the save succeeded. -/
theorem c9_save_appends_extension (s : Store) (fs : FileSys) (p : String)
    (h1 : strEndsWith p ".h5" = false) (h2 : lookupStr fs p = none) :
    lookupStr (StandaloneBackend.save s fs p) (p ++ ".h5") =
      some (StandaloneBackend.fileOfStore s) ∧
    lookupStr (StandaloneBackend.save s fs p) p = none ∧
    ∀ s2 : Store, StandaloneBackend.load s2 (StandaloneBackend.save s fs p) p =
      (s2, some (.fileNotFoundError "file not found")) := by
  have hne : p ≠ p ++ ".h5" := by
    intro hEq
    have hlen := congrArg String.length hEq
    have h3 : (".h5" : String).length = 3 := rfl
    rw [String.length_append, h3] at hlen
    omega
  have hsave : StandaloneBackend.save s fs p =
      insertOrReplace fs (p ++ ".h5") (StandaloneBackend.fileOfStore s) := by
    simp [StandaloneBackend.save, h1]
  have hlook : lookupStr (StandaloneBackend.save s fs p) p = none := by
    rw [hsave, lookupStr_insertOrReplace_ne fs (p ++ ".h5") p _ hne, h2]
  refine ⟨?_, hlook, ?_⟩
  · rw [hsave]
    exact lookupStr_insertOrReplace_self _ _ _
  · intro s2
    simp [StandaloneBackend.load, hlook]

/-- Witness for C9: an extensionless path on an empty file system. -/
theorem c9_save_appends_extension_witness :
    lookupStr (StandaloneBackend.save exStore [] "workspace") ("workspace" ++ ".h5") =
      some (StandaloneBackend.fileOfStore exStore) ∧
    lookupStr (StandaloneBackend.save exStore [] "workspace") "workspace" = none ∧
    ∀ s2 : Store,
      StandaloneBackend.load s2 (StandaloneBackend.save exStore [] "workspace") "workspace" =
        (s2, some (.fileNotFoundError "file not found")) :=
  c9_save_appends_extension exStore [] "workspace" (by decide) rfl

/-! ### Claim C8 -/

/-- Claim C8: rename on the local store.  When the old name is bound and the
new name free, the whole operation is the single map update shown (so no
intermediate state is observable), the old name no longer exists, the
new name exists and get on it returns the same object with its title set
to the new name.  When the old name is absent it raises KeyError, when
the new name is taken it raises ValueError, and in both error cases the
returned store is the original one unchanged. -/
theorem c8_rename_spec (s : Store) (a b : String)
    (hnd : (StandaloneBackend.list s).Nodup) :
    (∀ o, lookupStr s a = some o → lookupStr s b = none →
      StandaloneBackend.rename s a b =
        (insertOrReplace (removeKey s a) b (o.setTitle b), none) ∧
      StandaloneBackend.existsName
        (insertOrReplace (removeKey s a) b (o.setTitle b)) a = false ∧
      StandaloneBackend.existsName
        (insertOrReplace (removeKey s a) b (o.setTitle b)) b = true ∧
      StandaloneBackend.get
        (insertOrReplace (removeKey s a) b (o.setTitle b)) b =
          .ok (o.setTitle b) ∧
      (o.setTitle b).title = b) ∧
    (lookupStr s a = none →
      StandaloneBackend.rename s a b = (s, some (.keyError "object not found"))) ∧
    (∀ o, lookupStr s a = some o → (lookupStr s b).isSome = true →
      StandaloneBackend.rename s a b =
        (s, some (.valueError "object already exists"))) := by
  refine ⟨?_, ?_, ?_⟩
  · intro o ha hb
    have hab : a ≠ b := by
      intro h
      rw [h, hb] at ha
      exact Option.noConfusion ha
    refine ⟨by simp [StandaloneBackend.rename, ha, hb], ?_, ?_, ?_,
      DataObject.title_setTitle o b⟩
    · rw [StandaloneBackend.existsName,
        lookupStr_insertOrReplace_ne _ b a _ hab,
        lookupStr_removeKey_self s a hnd]
      rfl
    · rw [StandaloneBackend.existsName, lookupStr_insertOrReplace_self]
      rfl
    · rw [StandaloneBackend.get, lookupStr_insertOrReplace_self]
  · intro ha
    simp [StandaloneBackend.rename, ha]
  · intro o ha hb
    simp [StandaloneBackend.rename, ha, hb]

/-- Witness for C8: the three branches at a concrete two-entry store. -/
theorem c8_rename_spec_witness :
    (StandaloneBackend.rename exStore "s1" "r1" =
      (insertOrReplace (removeKey exStore "s1") "r1"
        ((DataObject.signal exSig).setTitle "r1"), none) ∧
     StandaloneBackend.existsName
       (insertOrReplace (removeKey exStore "s1") "r1"
         ((DataObject.signal exSig).setTitle "r1")) "s1" = false ∧
     StandaloneBackend.existsName
       (insertOrReplace (removeKey exStore "s1") "r1"
         ((DataObject.signal exSig).setTitle "r1")) "r1" = true ∧
     StandaloneBackend.get
       (insertOrReplace (removeKey exStore "s1") "r1"
         ((DataObject.signal exSig).setTitle "r1")) "r1" =
           .ok ((DataObject.signal exSig).setTitle "r1") ∧
     ((DataObject.signal exSig).setTitle "r1").title = "r1") ∧
    StandaloneBackend.rename exStore "zz" "r1" =
      (exStore, some (.keyError "object not found")) ∧
    StandaloneBackend.rename exStore "s1" "i1" =
      (exStore, some (.valueError "object already exists")) :=
  ⟨(c8_rename_spec exStore "s1" "r1" (by decide)).1 (.signal exSig) rfl rfl,
   (c8_rename_spec exStore "zz" "r1" (by decide)).2.1 rfl,
   (c8_rename_spec exStore "s1" "i1" (by decide)).2.2 (.signal exSig) rfl rfl⟩

/-! ### Claim C4 -/

/-- Claim C4: at the reference level, add stores a defensive copy: after a
successful add of the object behind reference r, get returns the value
the reference held at add time, both immediately and after the caller
mutates their reference to a different value. -/
theorem c4_add_get_defensive_copy (st : HeapState) (name : String)
    (r : Nat) (v2 : DataObject) (ow : Bool)
    (hr : r < st.heap.length)
    (hfree : lookupStr st.objects name = none ∨ ow = true) :
    (HeapState.add st name r ow).2 = none ∧
    HeapState.get (HeapState.add st name r ow).1 name =
      .ok (st.heap.getD r default) ∧
    HeapState.get (HeapState.mutate (HeapState.add st name r ow).1 r v2) name =
      .ok (st.heap.getD r default) := by
  have hcond : ((lookupStr st.objects name).isSome && !ow) = false := by
    rcases hfree with h | h
    · simp [h]
    · simp [h]
  have hadd : HeapState.add st name r ow =
      ({ heap := st.heap ++ [st.heap.getD r default]
         objects := insertOrReplace st.objects name st.heap.length }, none) := by
    simp [HeapState.add, hcond]
  refine ⟨by rw [hadd], ?_, ?_⟩
  · rw [hadd]
    simp only [HeapState.get, lookupStr_insertOrReplace_self]
    rw [getD_append_length]
  · rw [hadd]
    simp only [HeapState.get, HeapState.mutate, lookupStr_insertOrReplace_self]
    rw [getD_set_ne _ r st.heap.length _ _ (Nat.ne_of_lt hr),
      getD_append_length]

/-- Witness for C4: a one-cell heap, a fresh name, and a mutation that
overwrites the caller reference after add. -/
theorem c4_add_get_defensive_copy_witness :
    (HeapState.add ⟨[.signal exSig], []⟩ "n" 0 false).2 = none ∧
    HeapState.get (HeapState.add ⟨[.signal exSig], []⟩ "n" 0 false).1 "n" =
      .ok (([DataObject.signal exSig]).getD 0 default) ∧
    HeapState.get
      (HeapState.mutate (HeapState.add ⟨[.signal exSig], []⟩ "n" 0 false).1 0
        (.image exImgMask)) "n" =
      .ok (([DataObject.signal exSig]).getD 0 default) :=
  c4_add_get_defensive_copy ⟨[.signal exSig], []⟩ "n" 0 (.image exImgMask) false
    (by decide) (Or.inl rfl)

/-! ### Lemmas about the group-merging loop of load -/

theorem loadGroups_snd_none (gs : List (String × H5Group)) :
    ∀ s : Store,
    (∀ e ∈ gs, ∃ r, StandaloneBackend.loadObjectFromGroup e.2 e.1 = .ok r) →
    (StandaloneBackend.loadGroups s gs).2 = none := by
  induction gs with
  | nil => intro s _; rfl
  | cons hd tl ih =>
      intro s hok
      obtain ⟨m, gm⟩ := hd
      obtain ⟨r, hr⟩ := hok (m, gm) (List.mem_cons_self _ _)
      have htl : ∀ e ∈ tl, ∃ r,
          StandaloneBackend.loadObjectFromGroup e.2 e.1 = .ok r :=
        fun e he => hok e (List.mem_cons_of_mem _ he)
      cases r with
      | none => simp [StandaloneBackend.loadGroups, hr, ih _ htl]
      | some o => simp [StandaloneBackend.loadGroups, hr, ih _ htl]

theorem loadGroups_lookup_not_mem (gs : List (String × H5Group)) :
    ∀ (s : Store) (n : String), n ∉ keysOf gs →
    lookupStr (StandaloneBackend.loadGroups s gs).1 n = lookupStr s n := by
  induction gs with
  | nil => intro s n _; rfl
  | cons hd tl ih =>
      intro s n hn
      obtain ⟨m, gm⟩ := hd
      simp only [keysOf, List.map_cons, List.mem_cons, not_or] at hn
      cases hr : StandaloneBackend.loadObjectFromGroup gm m with
      | error e => simp [StandaloneBackend.loadGroups, hr]
      | ok r =>
          cases r with
          | none =>
              simp only [StandaloneBackend.loadGroups, hr]
              exact ih s n hn.2
          | some o =>
              simp only [StandaloneBackend.loadGroups, hr]
              rw [ih _ n hn.2,
                lookupStr_insertOrReplace_ne s m n o hn.1]

theorem loadGroups_lookup_mem (gs : List (String × H5Group)) :
    ∀ (s : Store) (n : String) (g : H5Group) (o : DataObject),
    (keysOf gs).Nodup → (n, g) ∈ gs →
    StandaloneBackend.loadObjectFromGroup g n = .ok (some o) →
    (∀ e ∈ gs, ∃ r, StandaloneBackend.loadObjectFromGroup e.2 e.1 = .ok r) →
    lookupStr (StandaloneBackend.loadGroups s gs).1 n = some o := by
  induction gs with
  | nil => intro s n g o _ hmem; exact absurd hmem (List.not_mem_nil _)
  | cons hd tl ih =>
      intro s n g o hnd hmem hdec hok
      obtain ⟨m, gm⟩ := hd
      simp only [keysOf, List.map_cons, List.nodup_cons] at hnd
      rcases List.mem_cons.mp hmem with heq | htl
      · have hn : n = m := congrArg Prod.fst heq
        have hg : g = gm := congrArg Prod.snd heq
        subst hn
        subst hg
        simp only [StandaloneBackend.loadGroups, hdec]
        rw [loadGroups_lookup_not_mem tl _ n hnd.1,
          lookupStr_insertOrReplace_self]
      · have htlok : ∀ e ∈ tl, ∃ r,
            StandaloneBackend.loadObjectFromGroup e.2 e.1 = .ok r :=
          fun e he => hok e (List.mem_cons_of_mem _ he)
        obtain ⟨r, hr⟩ := hok (m, gm) (List.mem_cons_self _ _)
        cases r with
        | none =>
            simp only [StandaloneBackend.loadGroups, hr]
            exact ih s n g o hnd.2 htl hdec htlok
        | some o' =>
            simp only [StandaloneBackend.loadGroups, hr]
            exact ih _ n g o hnd.2 htl hdec htlok

/-! ### Claim C7 -/

/-- Claim C7: load fails with FileNotFoundError (not a generic failure) when
the path is absent; and on a group whose type tag is missing or
unrecognized, the loader infers structurally: an x and y pair loads as a
signal (taking precedence), otherwise a data dataset loads as an
image. -/
theorem c7_load_filenotfound_and_inference :
    (∀ (s : Store) (fs : FileSys) (p : String), lookupStr fs p = none →
      StandaloneBackend.load s fs p =
        (s, some (.fileNotFoundError "file not found"))) ∧
    (∀ (g : H5Group) (n : String),
      g.typeTag.getD "unknown" ≠ "SignalObj" →
      g.typeTag.getD "unknown" ≠ "ImageObj" →
      (g.dsX.isSome = true → g.dsY.isSome = true →
        ∃ so, StandaloneBackend.loadObjectFromGroup g n =
          .ok (some (.signal so))) ∧
      ((g.dsX.isSome && g.dsY.isSome) = false → g.dsData.isSome = true →
        ∃ io, StandaloneBackend.loadObjectFromGroup g n =
          .ok (some (.image io)))) := by
  constructor
  · intro s fs p hp
    simp [StandaloneBackend.load, hp]
  · intro g n h1 h2
    constructor
    · intro hx hy
      obtain ⟨x, hgx⟩ := Option.isSome_iff_exists.mp hx
      obtain ⟨y, hgy⟩ := Option.isSome_iff_exists.mp hy
      refine ⟨{ title := g.aTitle.getD n, x := x, y := y
                dx := g.dsDx, dy := g.dsDy
                xlabel := g.aXlabel, ylabel := g.aYlabel
                xunit := g.aXunit, yunit := g.aYunit }, ?_⟩
      simp [StandaloneBackend.loadObjectFromGroup, h1, h2, hgx, hgy,
        StandaloneBackend.loadSignal]
    · intro hxy hd
      obtain ⟨d, hgd⟩ := Option.isSome_iff_exists.mp hd
      refine ⟨{ title := g.aTitle.getD n, data := d, mask := none
                x0 := g.aX0, y0 := g.aY0, dx := g.aDx, dy := g.aDy
                xlabel := g.aXlabel, ylabel := g.aYlabel, zlabel := g.aZlabel
                xunit := g.aXunit, yunit := g.aYunit, zunit := g.aZunit }, ?_⟩
      simp [StandaloneBackend.loadObjectFromGroup, h1, h2, hxy, hgd,
        StandaloneBackend.loadImage]

/-- Witness for C7: a missing path, a tagless group with x, y and data
inferring as a signal, and a group with an unknown tag and only data
inferring as an image. -/
theorem c7_load_filenotfound_and_inference_witness :
    StandaloneBackend.load exStore [] "nothing.h5" =
      (exStore, some (.fileNotFoundError "file not found")) ∧
    (∃ so, StandaloneBackend.loadObjectFromGroup exGroupXY "g" =
      .ok (some (.signal so))) ∧
    (∃ io, StandaloneBackend.loadObjectFromGroup exGroupData "g" =
      .ok (some (.image io))) :=
  ⟨c7_load_filenotfound_and_inference.1 exStore [] "nothing.h5" rfl,
   (c7_load_filenotfound_and_inference.2 exGroupXY "g" (by decide)
     (by decide)).1 rfl rfl,
   (c7_load_filenotfound_and_inference.2 exGroupData "g" (by decide)
     (by decide)).2 rfl rfl⟩

/-! ### Claim C10 -/

/-- Claim C10: load merges into the current collection: when the file exists,
its group names are unique and every group decodes without error, the
load completes, every pre-existing entry whose name is not a group name
keeps its binding unchanged, and every entry whose name is a group name
that decodes to an object is overwritten by the loaded object. -/
theorem c10_load_merges_into_store (s : Store) (fs : FileSys) (p : String)
    (f : H5File) (hf : lookupStr fs p = some f)
    (hnd : (keysOf f.groups).Nodup)
    (hok : ∀ e ∈ f.groups, ∃ r,
      StandaloneBackend.loadObjectFromGroup e.2 e.1 = .ok r) :
    (StandaloneBackend.load s fs p).2 = none ∧
    (∀ n, n ∉ keysOf f.groups →
      lookupStr (StandaloneBackend.load s fs p).1 n = lookupStr s n) ∧
    (∀ n g o, (n, g) ∈ f.groups →
      StandaloneBackend.loadObjectFromGroup g n = .ok (some o) →
      lookupStr (StandaloneBackend.load s fs p).1 n = some o) := by
  have hload : StandaloneBackend.load s fs p =
      StandaloneBackend.loadGroups s f.groups := by
    simp [StandaloneBackend.load, hf]
  refine ⟨?_, ?_, ?_⟩
  · rw [hload]
    exact loadGroups_snd_none f.groups s hok
  · intro n hn
    rw [hload]
    exact loadGroups_lookup_not_mem f.groups s n hn
  · intro n g o hmem hdec
    rw [hload]
    exact loadGroups_lookup_mem f.groups s n g o hnd hmem hdec hok

/-- Witness for C10: a store with a kept entry and a clashing entry, and
a file overwriting only the clashing one. -/
theorem c10_load_merges_into_store_witness :
    (StandaloneBackend.load [("keep", .signal exSig2), ("s1", .image exImgMask)]
      [("f.h5", StandaloneBackend.fileOfStore [("s1", .signal exSig)])]
      "f.h5").2 = none ∧
    lookupStr (StandaloneBackend.load
      [("keep", .signal exSig2), ("s1", .image exImgMask)]
      [("f.h5", StandaloneBackend.fileOfStore [("s1", .signal exSig)])]
      "f.h5").1 "keep" =
      lookupStr [("keep", .signal exSig2), ("s1", .image exImgMask)] "keep" ∧
    lookupStr (StandaloneBackend.load
      [("keep", .signal exSig2), ("s1", .image exImgMask)]
      [("f.h5", StandaloneBackend.fileOfStore [("s1", .signal exSig)])]
      "f.h5").1 "s1" = some (.signal exSig) := by
  have h := c10_load_merges_into_store
    [("keep", .signal exSig2), ("s1", .image exImgMask)]
    [("f.h5", StandaloneBackend.fileOfStore [("s1", .signal exSig)])]
    "f.h5" (StandaloneBackend.fileOfStore [("s1", .signal exSig)]) rfl
    (by decide)
    (by
      intro e he
      simp only [StandaloneBackend.fileOfStore, List.map_cons, List.map_nil,
        List.mem_singleton] at he
      subst he
      exact ⟨some (.signal exSig), rfl⟩)
  exact ⟨h.1, h.2.1 "keep" (by decide),
    h.2.2 "s1" (StandaloneBackend.saveObjectToGroup (.signal exSig))
      (.signal exSig) (List.mem_singleton.mpr rfl) rfl⟩

/-! ### Claim C1 -/

theorem attrIfTruthy_eq_self (x : Option String) (h : x ≠ some "") :
    attrIfTruthy x = x := by
  cases x with
  | none => rfl
  | some s =>
      have hs : ¬ s = "" := fun hh => h (by rw [hh])
      simp [attrIfTruthy, hs]

theorem loadObjectFromGroup_saveObjectToGroup (o : DataObject) (n : String)
    (hwf : WellFormedObject o) :
    ∃ o', StandaloneBackend.loadObjectFromGroup
        (StandaloneBackend.saveObjectToGroup o) n = .ok (some o') ∧
      RoundTripRel o o' := by
  cases o with
  | signal a =>
      obtain ⟨h1, h2, h3, h4⟩ := hwf
      refine ⟨.signal { title := (attrIfNonempty a.title).getD n
                        x := a.x, y := a.y, dx := a.dx, dy := a.dy
                        xlabel := attrIfTruthy a.xlabel
                        ylabel := attrIfTruthy a.ylabel
                        xunit := attrIfTruthy a.xunit
                        yunit := attrIfTruthy a.yunit }, rfl, ?_⟩
      exact ⟨rfl, rfl, rfl, rfl, attrIfTruthy_eq_self _ h1,
        attrIfTruthy_eq_self _ h2, attrIfTruthy_eq_self _ h3,
        attrIfTruthy_eq_self _ h4⟩
  | image a =>
      obtain ⟨h1, h2, h3, h4, h5, h6⟩ := hwf
      refine ⟨.image { title := (attrIfNonempty a.title).getD n
                       data := a.data, mask := none
                       x0 := a.x0, y0 := a.y0, dx := a.dx, dy := a.dy
                       xlabel := attrIfTruthy a.xlabel
                       ylabel := attrIfTruthy a.ylabel
                       zlabel := attrIfTruthy a.zlabel
                       xunit := attrIfTruthy a.xunit
                       yunit := attrIfTruthy a.yunit
                       zunit := attrIfTruthy a.zunit }, rfl, ?_⟩
      exact ⟨rfl, rfl, rfl, rfl, rfl, attrIfTruthy_eq_self _ h1,
        attrIfTruthy_eq_self _ h2, attrIfTruthy_eq_self _ h3,
        attrIfTruthy_eq_self _ h4, attrIfTruthy_eq_self _ h5,
        attrIfTruthy_eq_self _ h6, rfl⟩

/-- Counterexample for C1: saving a store holding an image with a mask and
loading it back on a fresh store succeeds, but the reloaded image
carries no mask, so the round trip does not reproduce the mask and does
not preserve the presence of that optional field. -/
theorem c1_mask_not_persisted_counterexample :
    (StandaloneBackend.load [] (StandaloneBackend.save exStore [] "w.h5")
      "w.h5").2 = none ∧
    lookupStr (StandaloneBackend.load []
      (StandaloneBackend.save exStore [] "w.h5") "w.h5").1 "i1" =
      some (.image { exImgMask with mask := none }) ∧
    exImgMask.mask = some [[true, false], [false, true]] ∧
    lookupStr (StandaloneBackend.load []
      (StandaloneBackend.save exStore [] "w.h5") "w.h5").1 "i1" ≠
      some (.image exImgMask) := by
  refine ⟨rfl, rfl, rfl, ?_⟩
  intro h
  have h0 : lookupStr (StandaloneBackend.load []
      (StandaloneBackend.save exStore [] "w.h5") "w.h5").1 "i1" =
      some (.image { exImgMask with mask := none }) := rfl
  rw [h0] at h
  have h1 := Option.some.inj h
  simp only [DataObject.image.injEq] at h1
  have h2 := congrArg ImageObj.mask h1
  simp [exImgMask] at h2

/-- Claim C1 as amended: the save-then-load round trip on a fresh store
reproduces, for every entry, the payload arrays exactly and the
presence, absence and values of the optional fields dx, dy, labels and
units — with the exception forced by the counterexample: an image mask
is never written by save, so every reloaded image carries no mask. -/
theorem c1_save_load_roundtrip_amended (s : Store) (fs : FileSys) (p : String)
    (hp : strEndsWith p ".h5" = true)
    (hnd : (StandaloneBackend.list s).Nodup)
    (hwf : ∀ e ∈ s, WellFormedObject e.2) :
    (StandaloneBackend.load [] (StandaloneBackend.save s fs p) p).2 = none ∧
    ∀ n o, lookupStr s n = some o →
      ∃ o', lookupStr (StandaloneBackend.load []
        (StandaloneBackend.save s fs p) p).1 n = some o' ∧
        RoundTripRel o o' := by
  have hlookup : lookupStr (StandaloneBackend.save s fs p) p =
      some (StandaloneBackend.fileOfStore s) := by
    simp only [StandaloneBackend.save, hp, if_true]
    exact lookupStr_insertOrReplace_self _ _ _
  have hload : StandaloneBackend.load [] (StandaloneBackend.save s fs p) p =
      StandaloneBackend.loadGroups [] (StandaloneBackend.fileOfStore s).groups := by
    simp [StandaloneBackend.load, hlookup]
  have hkeys : keysOf (StandaloneBackend.fileOfStore s).groups =
      StandaloneBackend.list s := by
    simp [StandaloneBackend.fileOfStore, keysOf, StandaloneBackend.list,
      List.map_map]
  have hok : ∀ e ∈ (StandaloneBackend.fileOfStore s).groups,
      ∃ r, StandaloneBackend.loadObjectFromGroup e.2 e.1 = .ok r := by
    intro e he
    simp only [StandaloneBackend.fileOfStore, List.mem_map] at he
    obtain ⟨⟨n, o⟩, hmem, heq⟩ := he
    obtain ⟨o', hdec, _⟩ :=
      loadObjectFromGroup_saveObjectToGroup o n (hwf (n, o) hmem)
    subst heq
    exact ⟨some o', hdec⟩
  refine ⟨?_, ?_⟩
  · rw [hload]
    exact loadGroups_snd_none _ _ hok
  · intro n o hno
    have hmem : (n, o) ∈ s := mem_of_lookupStr_some s n o hno
    obtain ⟨o', hdec, hrel⟩ :=
      loadObjectFromGroup_saveObjectToGroup o n (hwf (n, o) hmem)
    have hmemg : (n, StandaloneBackend.saveObjectToGroup o) ∈
        (StandaloneBackend.fileOfStore s).groups := by
      simp only [StandaloneBackend.fileOfStore, List.mem_map]
      exact ⟨(n, o), hmem, rfl⟩
    refine ⟨o', ?_, hrel⟩
    rw [hload]
    exact loadGroups_lookup_mem _ [] n (StandaloneBackend.saveObjectToGroup o)
      o' (by rw [hkeys]; exact hnd) hmemg hdec hok

/-- Witness for the amended C1 at the sample store: the signal, with
both uncertainty arrays present, round-trips in full. -/
theorem c1_save_load_roundtrip_amended_witness :
    (StandaloneBackend.load [] (StandaloneBackend.save exStore [] "w.h5")
      "w.h5").2 = none ∧
    (∃ o', lookupStr (StandaloneBackend.load []
      (StandaloneBackend.save exStore [] "w.h5") "w.h5").1 "s1" = some o' ∧
      RoundTripRel (.signal exSig) o') := by
  have h := c1_save_load_roundtrip_amended exStore [] "w.h5" (by decide)
    (by decide)
    (by
      intro e he
      simp only [exStore, List.mem_cons, List.not_mem_nil, or_false] at he
      rcases he with he | he <;> subst he <;>
        simp [WellFormedObject, exSig, exImgMask])
  exact ⟨h.1, h.2 "s1" (.signal exSig) rfl⟩

/-! ### Lemmas about the live backend and the resync migration -/

theorem peerInsert_sigProbeOk (p : Peer) (n : String) (o : DataObject) :
    (peerInsert p n o).sigProbeOk = p.sigProbeOk := by
  cases o <;> rfl

theorem peerInsert_imgProbeOk (p : Peer) (n : String) (o : DataObject) :
    (peerInsert p n o).imgProbeOk = p.imgProbeOk := by
  cases o <;> rfl

theorem liveList_of_probes (p : Peer) (hs : p.sigProbeOk = true)
    (hi : p.imgProbeOk = true) :
    LiveBackend.list p =
      p.signals.map (fun x => x.title) ++ p.images.map (fun x => x.title) := by
  simp [LiveBackend.list, LiveBackend.getObjectTitles, hs, hi]

theorem mem_list_peerInsert (p : Peer) (n : String) (o : DataObject)
    (m : String) (hs : p.sigProbeOk = true) (hi : p.imgProbeOk = true) :
    m ∈ LiveBackend.list (peerInsert p n o) ↔
      m ∈ LiveBackend.list p ∨ m = n := by
  cases o with
  | signal a =>
      rw [liveList_of_probes (peerInsert p n (.signal a))
          (by rw [peerInsert_sigProbeOk]; exact hs)
          (by rw [peerInsert_imgProbeOk]; exact hi),
        liveList_of_probes p hs hi]
      simp only [peerInsert, DataObject.setTitle, List.map_append,
        List.mem_append, List.map_cons, List.map_nil, List.mem_cons,
        List.not_mem_nil, or_false]
      tauto
  | image a =>
      rw [liveList_of_probes (peerInsert p n (.image a))
          (by rw [peerInsert_sigProbeOk]; exact hs)
          (by rw [peerInsert_imgProbeOk]; exact hi),
        liveList_of_probes p hs hi]
      simp only [peerInsert, DataObject.setTitle, List.map_append,
        List.mem_append, List.map_cons, List.map_nil, List.mem_cons,
        List.not_mem_nil, or_false]
      tauto

theorem transferLoop_congr (old old2 : BackendState) :
    ∀ (names : List String) (p : Peer),
    (∀ m ∈ names, Workspace.backendGet old m = Workspace.backendGet old2 m) →
    Workspace.transferLoop old names p = Workspace.transferLoop old2 names p := by
  intro names
  induction names with
  | nil => intro p _; rfl
  | cons n rest ih =>
      intro p h
      have hn := h n (List.mem_cons_self _ _)
      have hrest : ∀ m ∈ rest,
          Workspace.backendGet old m = Workspace.backendGet old2 m :=
        fun m hm => h m (List.mem_cons_of_mem _ hm)
      simp only [Workspace.transferLoop, hn]
      cases hg : Workspace.backendGet old2 n with
      | error e => simp [hg]
      | ok o =>
          simp only [hg]
          rcases ha : LiveBackend.add p n o with ⟨p2, err⟩
          cases err with
          | none => simpa [ha] using ih p2 hrest
          | some e => simp [ha]

theorem backendGet_head (n : String) (o : DataObject) (t : Store) :
    Workspace.backendGet (.standalone ((n, o) :: t)) n = .ok o := by
  simp [Workspace.backendGet, StandaloneBackend.get, lookupStr]

theorem backendGet_tail (n m : String) (o : DataObject) (t : Store)
    (h : ¬ n = m) :
    Workspace.backendGet (.standalone ((n, o) :: t)) m =
      Workspace.backendGet (.standalone t) m := by
  simp [Workspace.backendGet, StandaloneBackend.get, lookupStr, h]

theorem peerInsertAll_eq (s : Store) : ∀ p : Peer,
    peerInsertAll s p =
      { p with signals := p.signals ++ sigEntries s
               images := p.images ++ imgEntries s } := by
  induction s with
  | nil =>
      intro p
      simp [peerInsertAll, sigEntries, imgEntries]
  | cons hd tl ih =>
      intro p
      obtain ⟨n, o⟩ := hd
      cases o with
      | signal a =>
          simp only [peerInsertAll, peerInsert, DataObject.setTitle]
          rw [ih]
          simp [sigEntries, imgEntries, List.filterMap_cons, List.append_assoc]
      | image a =>
          simp only [peerInsertAll, peerInsert, DataObject.setTitle]
          rw [ih]
          simp [sigEntries, imgEntries, List.filterMap_cons, List.append_assoc]

theorem transferLoop_migrates (s : Store) : ∀ p : Peer,
    (keysOf s).Nodup →
    p.sigProbeOk = true → p.imgProbeOk = true →
    (∀ n ∈ keysOf s, n ∉ LiveBackend.list p) →
    Workspace.transferLoop (.standalone s) (StandaloneBackend.list s) p =
      .ok (peerInsertAll s p) := by
  induction s with
  | nil => intro p _ _ _ _; rfl
  | cons hd tl ih =>
      intro p hnd hs hi hcoll
      obtain ⟨n, o⟩ := hd
      simp only [keysOf, List.map_cons, List.nodup_cons] at hnd
      have hnmem : n ∉ LiveBackend.list p :=
        hcoll n (by simp [keysOf])
      have hex : LiveBackend.existsName p n = false := by
        simp [LiveBackend.existsName, hnmem]
      have hadd : LiveBackend.add p n o = (peerInsert p n o, none) := by
        cases o <;> simp [LiveBackend.add, hex, peerInsert, DataObject.setTitle]
      have hlist : StandaloneBackend.list ((n, o) :: tl) =
          n :: StandaloneBackend.list tl := rfl
      rw [hlist]
      simp only [Workspace.transferLoop, backendGet_head, hadd]
      have hcongr : ∀ m ∈ StandaloneBackend.list tl,
          Workspace.backendGet (.standalone ((n, o) :: tl)) m =
            Workspace.backendGet (.standalone tl) m := by
        intro m hm
        refine backendGet_tail n m o tl fun he => ?_
        exact hnd.1 (he ▸ hm)
      rw [transferLoop_congr _ _ (StandaloneBackend.list tl) (peerInsert p n o)
        hcongr]
      have hres := ih (peerInsert p n o) hnd.2
        (by rw [peerInsert_sigProbeOk]; exact hs)
        (by rw [peerInsert_imgProbeOk]; exact hi)
        (by
          intro m hm
          intro hmem
          rcases (mem_list_peerInsert p n o m hs hi).mp hmem with hx | hx
          · exact hcoll m (List.mem_cons_of_mem _ hm) hx
          · exact hnd.1 (hx ▸ hm))
      exact hres

theorem titles_sigEntries_sub (s : Store) (m : String) :
    m ∈ (sigEntries s).map (fun x => x.title) → m ∈ keysOf s := by
  induction s with
  | nil => intro h; simp [sigEntries] at h
  | cons hd tl ih =>
      intro h
      obtain ⟨n, o⟩ := hd
      simp only [keysOf, List.map_cons, List.mem_cons]
      cases o with
      | signal a =>
          simp only [sigEntries, List.filterMap_cons, List.map_cons,
            List.mem_cons] at h
          rcases h with h | h
          · exact Or.inl h
          · exact Or.inr (ih h)
      | image a =>
          simp only [sigEntries, List.filterMap_cons] at h
          exact Or.inr (ih h)

theorem titles_imgEntries_sub (s : Store) (m : String) :
    m ∈ (imgEntries s).map (fun x => x.title) → m ∈ keysOf s := by
  induction s with
  | nil => intro h; simp [imgEntries] at h
  | cons hd tl ih =>
      intro h
      obtain ⟨n, o⟩ := hd
      simp only [keysOf, List.map_cons, List.mem_cons]
      cases o with
      | signal a =>
          simp only [imgEntries, List.filterMap_cons] at h
          exact Or.inr (ih h)
      | image a =>
          simp only [imgEntries, List.filterMap_cons, List.map_cons,
            List.mem_cons] at h
          rcases h with h | h
          · exact Or.inl h
          · exact Or.inr (ih h)

theorem findSignalByTitle_append_right (l1 l2 : List SignalObj) (t : String)
    (h : ∀ x ∈ l1, x.title ≠ t) :
    LiveBackend.findSignalByTitle (l1 ++ l2) t =
      LiveBackend.findSignalByTitle l2 t := by
  induction l1 with
  | nil => rfl
  | cons a l ih =>
      have ha : ¬ a.title = t := h a (List.mem_cons_self _ _)
      simp only [List.cons_append, LiveBackend.findSignalByTitle, ha, if_false]
      exact ih fun x hx => h x (List.mem_cons_of_mem _ hx)

theorem findImageByTitle_append_right (l1 l2 : List ImageObj) (t : String)
    (h : ∀ x ∈ l1, x.title ≠ t) :
    LiveBackend.findImageByTitle (l1 ++ l2) t =
      LiveBackend.findImageByTitle l2 t := by
  induction l1 with
  | nil => rfl
  | cons a l ih =>
      have ha : ¬ a.title = t := h a (List.mem_cons_self _ _)
      simp only [List.cons_append, LiveBackend.findImageByTitle, ha, if_false]
      exact ih fun x hx => h x (List.mem_cons_of_mem _ hx)

theorem not_title_sig_of_not_mem_list (p : Peer) (n : String)
    (hs : p.sigProbeOk = true) (hi : p.imgProbeOk = true)
    (h : n ∉ LiveBackend.list p) : ∀ x ∈ p.signals, x.title ≠ n := by
  intro x hx he
  apply h
  rw [liveList_of_probes p hs hi]
  subst he
  exact List.mem_append_left _ (List.mem_map_of_mem _ hx)

theorem not_title_img_of_not_mem_list (p : Peer) (n : String)
    (hs : p.sigProbeOk = true) (hi : p.imgProbeOk = true)
    (h : n ∉ LiveBackend.list p) : ∀ x ∈ p.images, x.title ≠ n := by
  intro x hx he
  apply h
  rw [liveList_of_probes p hs hi]
  subst he
  exact List.mem_append_right _ (List.mem_map_of_mem _ hx)

theorem findSig_sigEntries (s : Store) (n : String) (a : SignalObj) :
    lookupStr s n = some (.signal a) →
    LiveBackend.findSignalByTitle (sigEntries s) n = some { a with title := n } := by
  induction s with
  | nil => intro h; simp [lookupStr] at h
  | cons hd tl ih =>
      intro h
      obtain ⟨m, o⟩ := hd
      by_cases hm : m = n
      · subst hm
        have ho : o = DataObject.signal a := by simpa [lookupStr] using h
        subst ho
        simp [sigEntries, List.filterMap_cons, LiveBackend.findSignalByTitle]
      · simp only [lookupStr, hm, if_false] at h
        cases o with
        | signal b =>
            simp only [sigEntries, List.filterMap_cons,
              LiveBackend.findSignalByTitle]
            rw [if_neg (by simpa using hm)]
            exact ih h
        | image b =>
            simp only [sigEntries, List.filterMap_cons]
            exact ih h

theorem findImg_imgEntries (s : Store) (n : String) (a : ImageObj) :
    lookupStr s n = some (.image a) →
    LiveBackend.findImageByTitle (imgEntries s) n = some { a with title := n } := by
  induction s with
  | nil => intro h; simp [lookupStr] at h
  | cons hd tl ih =>
      intro h
      obtain ⟨m, o⟩ := hd
      by_cases hm : m = n
      · subst hm
        have ho : o = DataObject.image a := by simpa [lookupStr] using h
        subst ho
        simp [imgEntries, List.filterMap_cons, LiveBackend.findImageByTitle]
      · simp only [lookupStr, hm, if_false] at h
        cases o with
        | signal b =>
            simp only [imgEntries, List.filterMap_cons]
            exact ih h
        | image b =>
            simp only [imgEntries, List.filterMap_cons,
              LiveBackend.findImageByTitle]
            rw [if_neg (by simpa using hm)]
            exact ih h

theorem not_mem_sigTitles_of_lookup_image (s : Store) (n : String)
    (a : ImageObj) :
    (keysOf s).Nodup → lookupStr s n = some (.image a) →
    n ∉ (sigEntries s).map (fun x => x.title) := by
  induction s with
  | nil => intro _ h; simp [lookupStr] at h
  | cons hd tl ih =>
      intro hnd h
      obtain ⟨m, o⟩ := hd
      simp only [keysOf, List.map_cons, List.nodup_cons] at hnd
      by_cases hm : m = n
      · subst hm
        have ho : o = DataObject.image a := by simpa [lookupStr] using h
        subst ho
        simp only [sigEntries, List.filterMap_cons]
        intro hmem
        exact hnd.1 (titles_sigEntries_sub tl m hmem)
      · simp only [lookupStr, hm, if_false] at h
        cases o with
        | signal b =>
            simp only [sigEntries, List.filterMap_cons, List.map_cons,
              List.mem_cons]
            rintro (hx | hx)
            · exact hm hx.symm
            · exact ih hnd.2 h hx
        | image b =>
            simp only [sigEntries, List.filterMap_cons]
            exact ih hnd.2 h

theorem mem_titles_of_findSignal (l : List SignalObj) (t : String)
    (x : SignalObj) (h : LiveBackend.findSignalByTitle l t = some x) :
    t ∈ l.map (fun y => y.title) := by
  induction l with
  | nil => simp [LiveBackend.findSignalByTitle] at h
  | cons a l ih =>
      by_cases ha : a.title = t
      · simp [ha]
      · simp only [LiveBackend.findSignalByTitle, ha, if_false] at h
        simp only [List.map_cons, List.mem_cons]
        exact Or.inr (ih h)

theorem mem_titles_of_findImage (l : List ImageObj) (t : String)
    (x : ImageObj) (h : LiveBackend.findImageByTitle l t = some x) :
    t ∈ l.map (fun y => y.title) := by
  induction l with
  | nil => simp [LiveBackend.findImageByTitle] at h
  | cons a l ih =>
      by_cases ha : a.title = t
      · simp [ha]
      · simp only [LiveBackend.findImageByTitle, ha, if_false] at h
        simp only [List.map_cons, List.mem_cons]
        exact Or.inr (ih h)

theorem liveGet_peerInsertAll (s : Store) (p : Peer)
    (hnd : (keysOf s).Nodup)
    (hs : p.sigProbeOk = true) (hi : p.imgProbeOk = true)
    (hcoll : ∀ n ∈ keysOf s, n ∉ LiveBackend.list p) :
    ∀ n o, lookupStr s n = some o →
    LiveBackend.get (peerInsertAll s p) n = .ok (o.setTitle n) := by
  intro n o h
  have hnp : n ∉ LiveBackend.list p :=
    hcoll n (mem_keys_of_lookupStr_some s n o h)
  have hnotsig : ∀ x ∈ p.signals, x.title ≠ n :=
    not_title_sig_of_not_mem_list p n hs hi hnp
  have hnotimg : ∀ x ∈ p.images, x.title ≠ n :=
    not_title_img_of_not_mem_list p n hs hi hnp
  rw [peerInsertAll_eq s p]
  cases o with
  | signal a =>
      have hfind := findSig_sigEntries s n a h
      have hmemT : n ∈ (sigEntries s).map (fun x => x.title) :=
        mem_titles_of_findSignal _ _ _ hfind
      have hmem : n ∈ (p.signals ++ sigEntries s).map (fun x => x.title) := by
        simp only [List.map_append, List.mem_append]
        exact Or.inr hmemT
      simp only [LiveBackend.get, LiveBackend.getObjectTitles, hs, if_true,
        hmem, LiveBackend.getObjectFromPanel]
      rw [findSignalByTitle_append_right _ _ _ hnotsig, hfind]
      simp [DataObject.setTitle]
  | image a =>
      have hnotT : n ∉ (sigEntries s).map (fun x => x.title) :=
        not_mem_sigTitles_of_lookup_image s n a hnd h
      have hnm : n ∉ (p.signals ++ sigEntries s).map (fun x => x.title) := by
        simp only [List.map_append, List.mem_append]
        rintro (hx | hx)
        · obtain ⟨x, hxm, hxt⟩ := List.mem_map.mp hx
          exact hnotsig x hxm hxt
        · exact hnotT hx
      have hfind := findImg_imgEntries s n a h
      have hmemT : n ∈ (imgEntries s).map (fun x => x.title) :=
        mem_titles_of_findImage _ _ _ hfind
      have hmem : n ∈ (p.images ++ imgEntries s).map (fun x => x.title) := by
        simp only [List.map_append, List.mem_append]
        exact Or.inr hmemT
      simp only [LiveBackend.get, LiveBackend.getObjectTitles, hs, if_true,
        hnm, LiveBackend.getFromImages, hi, hmem,
        LiveBackend.getObjectFromPanel]
      rw [findImageByTitle_append_right _ _ _ hnotimg, hfind]
      simp [DataObject.setTitle]

/-! ### Claim C2 -/

/-- Counterexample for C2: a standalone workspace holding one entry named
s1, and a reachable peer whose signal panel already holds an object
titled s1.  The live backend constructs, but the migration add raises
ValueError, so resync propagates an error instead of returning true. -/
theorem c2_resync_clash_counterexample :
    (⟨.standalone, .standalone [("s1", .signal exSig)]⟩ : Workspace).mode =
      .standalone ∧
    Workspace.resync ⟨.standalone, .standalone [("s1", .signal exSig)]⟩ true
      exPeerClash = .error (.valueError "object already exists") :=
  ⟨rfl, rfl⟩

/-- Claim C2 as amended: resync on a live workspace is a no-op returning false;
on a standalone workspace whose live-backend construction fails it
returns false leaving the workspace untouched; and when construction
succeeds, the peer panel probes are healthy and no entry name collides
with a title already on the peer (the proviso the counterexample
forces), it migrates every entry in store order, switches to live mode,
returns true, every migrated entry is retrievable from the new backend
with its title set to its name, and a second call returns false. -/
theorem c2_resync_amended :
    (∀ (b : BackendState) (connectOk : Bool) (p0 : Peer),
      Workspace.resync ⟨.live, b⟩ connectOk p0 = .ok (⟨.live, b⟩, false)) ∧
    (∀ (b : BackendState) (p0 : Peer),
      Workspace.resync ⟨.standalone, b⟩ false p0 =
        .ok (⟨.standalone, b⟩, false)) ∧
    (∀ (s : Store) (p0 : Peer),
      (keysOf s).Nodup →
      p0.sigProbeOk = true → p0.imgProbeOk = true →
      (∀ n ∈ keysOf s, n ∉ LiveBackend.list p0) →
      Workspace.resync ⟨.standalone, .standalone s⟩ true p0 =
        .ok (⟨.live, .liveRpc (peerInsertAll s p0)⟩, true) ∧
      (∀ n o, lookupStr s n = some o →
        LiveBackend.get (peerInsertAll s p0) n = .ok (o.setTitle n)) ∧
      (∀ (connectOk2 : Bool) (p2 : Peer),
        Workspace.resync ⟨.live, .liveRpc (peerInsertAll s p0)⟩ connectOk2 p2 =
          .ok (⟨.live, .liveRpc (peerInsertAll s p0)⟩, false))) := by
  refine ⟨?_, ?_, ?_⟩
  · intro b connectOk p0
    simp [Workspace.resync]
  · intro b p0
    simp [Workspace.resync]
  · intro s p0 hnd hs hi hcoll
    refine ⟨?_, liveGet_peerInsertAll s p0 hnd hs hi hcoll, ?_⟩
    · have hmig := transferLoop_migrates s p0 hnd hs hi hcoll
      simp [Workspace.resync, Workspace.backendList, hmig]
    · intro connectOk2 p2
      simp [Workspace.resync]

/-- Witness for the amended C2: the sample store migrated into an empty
healthy peer; the entry s1 is retrievable afterwards, and a second
resync returns false. -/
theorem c2_resync_amended_witness :
    Workspace.resync ⟨.standalone, .standalone exStore⟩ true exPeerEmpty =
      .ok (⟨.live, .liveRpc (peerInsertAll exStore exPeerEmpty)⟩, true) ∧
    LiveBackend.get (peerInsertAll exStore exPeerEmpty) "s1" =
      .ok ((DataObject.signal exSig).setTitle "s1") ∧
    Workspace.resync ⟨.live, .liveRpc (peerInsertAll exStore exPeerEmpty)⟩
      true exPeerClash =
      .ok (⟨.live, .liveRpc (peerInsertAll exStore exPeerEmpty)⟩, false) := by
  have h := c2_resync_amended.2.2 exStore exPeerEmpty (by decide) rfl rfl
    (by decide)
  exact ⟨h.1, h.2.1 "s1" (.signal exSig) rfl, h.2.2 true exPeerClash⟩
